import Mathlib

/-!
Shallow embedding of `src/calrissian/report.py`.

Modelling conventions:
* Python floats are modelled as `ℚ`.  Every concrete computation appearing in
  a theorem below (small sums and products, division by powers of two, division
  by 3600) is exact in IEEE-754 double precision, so the rational model agrees
  with Python float semantics on those inputs.  The one inexact double constant
  in the source, the CPU suffix factor `0.001`, is modelled as `1/1000` and is
  not used by any theorem.
* `datetime` instants are modelled as rational timestamps in seconds; the
  difference of two instants is their difference in seconds, matching
  `timedelta.total_seconds()`.  A `datetime` object is always truthy, so the
  comprehension filter `if c.start_time` of `_recalculate_times` is modelled
  as the time being present (`Option.isSome`).
* Exceptions are modelled with `Except ReportError`:
  `ValueError('Negative time is not allowed: ...')` as `invalidInterval`
  (carrying the negative seconds embedded in the message), the `ValueError`
  raised by `ResourceParser.parse` as `unparseableQuantity` (carrying the
  offending value and the class's `kind`; the message also embeds the class's
  fixed documentation URL, a constant irrelevant here), the `TypeError` from
  subtracting `None` or calling `vars` on a `dict` as `typeError`, and the
  `AttributeError` from accessing an attribute or method on a `dict` child as
  `attributeError`.
* Methods of `TimelineReport` are modelled in state-passing style, returning
  the new receiver state alongside their result, so that mutation of the
  receiver (or its absence) is visible in the model.
-/

namespace Calrissian

inductive ReportError where
  | invalidInterval (seconds : ℚ)
  | unparseableQuantity (value : String) (kind : String)
  | typeError
  | attributeError
deriving DecidableEq

/-- Constant `SECONDS_PER_HOUR = 60.0 * 60.0` from the source. -/
def SECONDS_PER_HOUR : ℚ := 60 * 60

/-- Source `TimedReport.__init__`: both times default to `None` and may be set
independently, hence `Option`. -/
structure TimedReport where
  start_time : Option ℚ
  finish_time : Option ℚ
deriving DecidableEq

/-- Source `TimedReport.elapsed_seconds`: `finish_time - start_time` in seconds,
raising `ValueError` when negative.  Subtraction with a `None` operand raises
`TypeError` in Python. -/
def TimedReport.elapsed_seconds (r : TimedReport) : Except ReportError ℚ :=
  match r.finish_time, r.start_time with
  | some f, some s =>
    let total_seconds := f - s
    if total_seconds < 0 then .error (.invalidInterval total_seconds)
    else .ok total_seconds
  | _, _ => .error .typeError

/-- Source `TimedReport.elapsed_hours`. -/
def TimedReport.elapsed_hours (r : TimedReport) : Except ReportError ℚ :=
  (r.elapsed_seconds).map (fun s => s / SECONDS_PER_HOUR)

/-! Resource string parsing -/

def digitVal (c : Char) : ℕ := c.toNat - 48

def digitsValNat (cs : List Char) : ℕ :=
  cs.foldl (fun a c => a * 10 + digitVal c) 0

def digitsVal (cs : List Char) : ℚ := (digitsValNat cs : ℚ)

/-- Python `str.replace(pattern, '')`: delete every (left-to-right,
non-overlapping) occurrence of `pattern`.  The fuel argument, initially the
length of the subject, bounds the recursion; each step consumes at least one
character, so the fuel is never exhausted first. -/
def replaceAllAux (pattern : List Char) : ℕ → List Char → List Char
  | 0, v => v
  | _ + 1, [] => []
  | n + 1, c :: rest =>
    if pattern.isPrefixOf (c :: rest) ∧ pattern ≠ [] then
      replaceAllAux pattern n ((c :: rest).drop pattern.length)
    else c :: replaceAllAux pattern n rest

def replaceAll (v pattern : List Char) : List Char :=
  replaceAllAux pattern v.length v

/-- Model of Python `float()` on strings, restricted to finite decimal
literals: an optional sign, digits with an optional fractional part, and an
optional exponent.  Surrounding whitespace, digit-group underscores and the
`inf`/`nan` spellings accepted by Python are outside the modelled grammar;
every theorem below evaluates `float()` only on strings that are inside this
grammar or rejected by both.  Returns `none` where Python raises
`ValueError`. -/
def pyFloat (cs : List Char) : Option ℚ :=
  let signAndRest : ℚ × List Char :=
    match cs with
    | '+' :: rest => (1, rest)
    | '-' :: rest => (-1, rest)
    | _ => (1, cs)
  let sign := signAndRest.1
  let cs1 := signAndRest.2
  let intPart := cs1.takeWhile Char.isDigit
  let cs2 := cs1.dropWhile Char.isDigit
  let fracAndRest : List Char × List Char :=
    match cs2 with
    | '.' :: rest => (rest.takeWhile Char.isDigit, rest.dropWhile Char.isDigit)
    | _ => ([], cs2)
  let fracPart := fracAndRest.1
  let cs3 := fracAndRest.2
  if intPart = [] ∧ fracPart = [] then none
  else
    let mantissa : ℚ := sign * (digitsVal intPart + digitsVal fracPart / 10 ^ fracPart.length)
    match cs3 with
    | [] => some mantissa
    | e :: rest =>
      if e = 'e' ∨ e = 'E' then
        let esignAndRest : ℤ × List Char :=
          match rest with
          | '+' :: r => (1, r)
          | '-' :: r => (-1, r)
          | _ => (1, rest)
        let eDigits := esignAndRest.2.takeWhile Char.isDigit
        let rest2 := esignAndRest.2.dropWhile Char.isDigit
        if eDigits = [] ∨ rest2 ≠ [] then none
        else some (mantissa * (10 : ℚ) ^ (esignAndRest.1 * (digitsValNat eDigits : ℤ)))
      else none

/-- The `for suffix, factor in cls.suffixes.items()` loop of
`ResourceParser.parse`: Python dicts iterate in insertion order and the loop
returns at the first suffix `value.endswith(suffix)` matches. -/
def findSuffix : List (List Char × ℚ) → List Char → Option (List Char × ℚ)
  | [], _ => none
  | (suffix, factor) :: rest, v =>
    if suffix.isSuffixOf v then some (suffix, factor) else findSuffix rest v

/-- Source `ResourceParser.parse`.  The `try` block covers the whole loop, so a
`float()` failure on the stripped string (as well as on the bare value) is
turned into the `ValueError` carrying the offending value and the class's
`kind`. -/
def ResourceParser.parse (suffixes : List (List Char × ℚ)) (kind : String)
    (value : String) : Except ReportError ℚ :=
  match findSuffix suffixes value.toList with
  | some (suffix, factor) =>
    match pyFloat (replaceAll value.toList suffix) with
    | some x => .ok (x * factor)
    | none => .error (.unparseableQuantity value kind)
  | none =>
    match pyFloat value.toList with
    | some x => .ok x
    | none => .error (.unparseableQuantity value kind)

/-- Source `MemoryParser.suffixes`, in the source's insertion order. -/
def MemoryParser.suffixes : List (List Char × ℚ) :=
  [(['E'], 10 ^ 18), (['P'], 10 ^ 15), (['T'], 10 ^ 12), (['G'], 10 ^ 9),
   (['M'], 10 ^ 6), (['K'], 10 ^ 3),
   (['E', 'i'], 2 ^ 60), (['P', 'i'], 2 ^ 50), (['T', 'i'], 2 ^ 40),
   (['G', 'i'], 2 ^ 30), (['M', 'i'], 2 ^ 20), (['K', 'i'], 2 ^ 10)]

def MemoryParser.parse (value : String) : Except ReportError ℚ :=
  ResourceParser.parse MemoryParser.suffixes "memory" value

/-- Source `MemoryParser.parse_to_megabytes`: `cls.parse(value) / 1024`. -/
def MemoryParser.parse_to_megabytes (value : String) : Except ReportError ℚ :=
  (MemoryParser.parse value).map (fun x => x / 1024)

/-- Source `CPUParser.suffixes`; the double closest to `0.001` is modelled as the
exact rational. -/
def CPUParser.suffixes : List (List Char × ℚ) := [(['m'], 1 / 1000)]

def CPUParser.parse (value : String) : Except ReportError ℚ :=
  ResourceParser.parse CPUParser.suffixes "cpu" value

/-! Timed resource reports -/

/-- Source `TimedResourceReport`: a `TimedReport` with `cpus` and `ram_megabytes`
weights. -/
structure TimedResourceReport extends TimedReport where
  cpus : ℚ
  ram_megabytes : ℚ
deriving DecidableEq

def TimedResourceReport.ram_megabyte_hours (r : TimedResourceReport) :
    Except ReportError ℚ :=
  (r.toTimedReport.elapsed_hours).map (fun h => r.ram_megabytes * h)

def TimedResourceReport.cpu_hours (r : TimedResourceReport) :
    Except ReportError ℚ :=
  (r.toTimedReport.elapsed_hours).map (fun h => r.cpus * h)

/-! Events and the sweep processor -/

/-- Constants `Event.START = 1` and `Event.FINISH = -1`: numeric values chosen so that the
`(time, type)` sort key ranks finish events before start events at equal
times. -/
def Event.START : Int := 1

def Event.FINISH : Int := -1

/-- An `Event` stores the report's time, its type and a reference to the
report.  The stored time is the report's own (set) time; a `None` time would
make Python's later tuple sort raise `TypeError` against any `datetime`, so
every theorem about the sweep requires the children's times to be set, and the
`getD` default is never exercised there. -/
structure Event where
  time : ℚ
  type : Int
  report : TimedResourceReport

def Event.start_event (report : TimedResourceReport) : Event :=
  ⟨report.start_time.getD 0, Event.START, report⟩

def Event.finish_event (report : TimedResourceReport) : Event :=
  ⟨report.finish_time.getD 0, Event.FINISH, report⟩

/-- Source `MaxParallelCountProcessor` and its two subclasses differ only in
`count_unit`, modelled as a function-valued field. -/
structure SweepProcessor where
  count_unit : TimedResourceReport → ℚ
  count : ℚ
  max : ℚ

/-- Source `MaxParallelCountProcessor.process`: add or subtract the count unit
according to the event type, then recompute the running maximum. -/
def SweepProcessor.process (p : SweepProcessor) (report : TimedResourceReport)
    (event_type : Int) : SweepProcessor :=
  let count' :=
    if event_type = Event.START then p.count + p.count_unit report
    else if event_type = Event.FINISH then p.count - p.count_unit report
    else p.count
  ⟨p.count_unit, count', Max.max p.max count'⟩

def SweepProcessor.result (p : SweepProcessor) : ℚ := p.max

/-- Source `Event.process`: call the processor's `process` with this event's report
and type. -/
def Event.process (e : Event) (processor : SweepProcessor) : SweepProcessor :=
  processor.process e.report e.type

/-- A fresh `MaxParallelCountProcessor()`: `count = 0`, `max = 0`, unit 1. -/
def MaxParallelCountProcessor : SweepProcessor := ⟨fun _ => 1, 0, 0⟩

/-- A fresh `MaxParallelCPUsProcessor()`: counts `report.cpus`. -/
def MaxParallelCPUsProcessor : SweepProcessor := ⟨fun report => report.cpus, 0, 0⟩

/-- A fresh `MaxParallelRAMProcessor()`: counts `report.ram_megabytes`. -/
def MaxParallelRAMProcessor : SweepProcessor := ⟨fun report => report.ram_megabytes, 0, 0⟩

/-- The comparison underlying `sorted(events, key=lambda x: (x.time, x.type))`:
lexicographic non-strict order on the `(time, type)` key.  Python's `sorted`
is stable; `List.insertionSort` with a non-strict total order is stable as
well (an element is inserted before exactly the strictly greater ones among
the later elements). -/
def eventLe (e1 e2 : Event) : Prop :=
  e1.time < e2.time ∨ (e1.time = e2.time ∧ e1.type ≤ e2.type)

instance (e1 e2 : Event) : Decidable (eventLe e1 e2) :=
  inferInstanceAs (Decidable (e1.time < e2.time ∨ (e1.time = e2.time ∧ e1.type ≤ e2.type)))

instance : IsTotal Event eventLe where
  total e1 e2 := by
    rcases lt_trichotomy e1.time e2.time with h | h | h
    · exact Or.inl (Or.inl h)
    · rcases le_total e1.type e2.type with h' | h'
      · exact Or.inl (Or.inr ⟨h, h'⟩)
      · exact Or.inr (Or.inr ⟨h.symm, h'⟩)
    · exact Or.inr (Or.inl h)

instance : IsTrans Event eventLe where
  trans e1 e2 e3 h12 h23 := by
    rcases h12 with h12 | ⟨h12, h12'⟩
    · rcases h23 with h23 | ⟨h23, _⟩
      · exact Or.inl (h12.trans h23)
      · exact Or.inl (h23 ▸ h12)
    · rcases h23 with h23 | ⟨h23, h23'⟩
      · exact Or.inl (h12 ▸ h23)
      · exact Or.inr ⟨h12.trans h23, h12'.trans h23'⟩

/-! The timeline -/

/-- A child slot of a `TimelineReport`.  Normally it holds a
`TimedResourceReport` object; after `to_yaml` has run it holds the plain
attribute dictionary `vars(report)` instead, which carries the same four
fields but none of the report methods. -/
inductive ChildVal where
  | report (r : TimedResourceReport)
  | attrDict (attrs : TimedResourceReport)
deriving DecidableEq

/-- Call `child.cpu_hours()`: calling a report method on a `dict` child raises
`AttributeError`. -/
def ChildVal.cpu_hours : ChildVal → Except ReportError ℚ
  | .report r => r.cpu_hours
  | .attrDict _ => .error .attributeError

def ChildVal.ram_megabyte_hours : ChildVal → Except ReportError ℚ
  | .report r => r.ram_megabyte_hours
  | .attrDict _ => .error .attributeError

/-- Attribute access `c.start_time`: raises `AttributeError` on a `dict`. -/
def ChildVal.start_attr : ChildVal → Except ReportError (Option ℚ)
  | .report r => .ok r.start_time
  | .attrDict _ => .error .attributeError

def ChildVal.finish_attr : ChildVal → Except ReportError (Option ℚ)
  | .report r => .ok r.finish_time
  | .attrDict _ => .error .attributeError

/-- Builtin `vars(x)`: the attribute dictionary of a report; `vars` on a `dict` child
raises `TypeError` (a dict has no `__dict__`). -/
def ChildVal.vars_of : ChildVal → Except ReportError TimedResourceReport
  | .report r => .ok r
  | .attrDict _ => .error .typeError

/-- Sequential evaluation of `[f(c) for c in children]`: the first exception
aborts the comprehension. -/
def collectValues (f : ChildVal → Except ReportError ℚ) :
    List ChildVal → Except ReportError (List ℚ)
  | [] => .ok []
  | c :: cs =>
    match f c with
    | .error e => .error e
    | .ok x =>
      match collectValues f cs with
      | .error e => .error e
      | .ok xs => .ok (x :: xs)

/-- Sequential evaluation of `[c.t for c in children if c.t]` for a time
attribute `t`. -/
def collectSetTimes (f : ChildVal → Except ReportError (Option ℚ)) :
    List ChildVal → Except ReportError (List ℚ)
  | [] => .ok []
  | c :: cs =>
    match f c with
    | .error e => .error e
    | .ok t =>
      match collectSetTimes f cs with
      | .error e => .error e
      | .ok ts =>
        match t with
        | some x => .ok (x :: ts)
        | none => .ok ts

/-- The event-building loop of `_walk`: two events per child, start first;
`Event.start_event(report)` reads `report.start_time`, which raises
`AttributeError` on a `dict` child. -/
def buildEvents : List ChildVal → Except ReportError (List Event)
  | [] => .ok []
  | c :: cs =>
    match c with
    | .attrDict _ => .error .attributeError
    | .report r =>
      match buildEvents cs with
      | .error e => .error e
      | .ok es => .ok (Event.start_event r :: Event.finish_event r :: es)

/-- Source `TimelineReport`: children plus the inherited (derived) span. -/
structure TimelineReport where
  children : List ChildVal
  start_time : Option ℚ
  finish_time : Option ℚ
deriving DecidableEq

def TimelineReport.total_cpu_hours (t : TimelineReport) :
    Except ReportError ℚ × TimelineReport :=
  ((collectValues ChildVal.cpu_hours t.children).map (fun l => l.sum), t)

def TimelineReport.total_ram_megabyte_hours (t : TimelineReport) :
    Except ReportError ℚ × TimelineReport :=
  ((collectValues ChildVal.ram_megabyte_hours t.children).map (fun l => l.sum), t)

def TimelineReport.total_tasks (t : TimelineReport) : ℕ × TimelineReport :=
  (t.children.length, t)

/-- Source `TimelineReport._walk`: build two events per child, sort them by the
`(time, type)` key, fold the processor through them and return its result.
Only the local processor changes; the timeline is not touched. -/
def TimelineReport._walk (t : TimelineReport) (processor : SweepProcessor) :
    Except ReportError ℚ :=
  (buildEvents t.children).map (fun events =>
    ((List.insertionSort eventLe events).foldl
      (fun p e => e.process p) processor).result)

def TimelineReport.max_parallel_tasks (t : TimelineReport) :
    Except ReportError ℚ × TimelineReport :=
  (t._walk MaxParallelCountProcessor, t)

def TimelineReport.max_parallel_cpus (t : TimelineReport) :
    Except ReportError ℚ × TimelineReport :=
  (t._walk MaxParallelCPUsProcessor, t)

def TimelineReport.max_parallel_ram_megabytes (t : TimelineReport) :
    Except ReportError ℚ × TimelineReport :=
  (t._walk MaxParallelRAMProcessor, t)

/-- Source `TimelineReport._recalculate_times`: collect the set start times, if any
take `sorted(start_times)[0]`; then the set finish times, if any take
`sorted(finish_times)[-1]`. -/
def TimelineReport._recalculate_times (t : TimelineReport) :
    Except ReportError TimelineReport :=
  match collectSetTimes ChildVal.start_attr t.children with
  | .error e => .error e
  | .ok start_times =>
    let t1 :=
      match List.insertionSort (· ≤ ·) start_times with
      | [] => t
      | x :: _ => { t with start_time := some x }
    match collectSetTimes ChildVal.finish_attr t1.children with
    | .error e => .error e
    | .ok finish_times =>
      match (List.insertionSort (· ≤ ·) finish_times).getLast? with
      | none => .ok t1
      | some x => .ok { t1 with finish_time := some x }

/-- Source `TimelineReport.add_report`: append, then recompute the span. -/
def TimelineReport.add_report (t : TimelineReport) (report : TimedResourceReport) :
    Except ReportError TimelineReport :=
  TimelineReport._recalculate_times
    { t with children := t.children ++ [ChildVal.report report] }

/-- The structured document `yaml.safe_dump` receives: the timeline's own
`__dict__` with `children` replaced by the list of per-child attribute
dictionaries.  The serialization to text is out of scope (spec section 1);
only the structure is modelled. -/
structure TimelineVars where
  start_time : Option ℚ
  finish_time : Option ℚ
  children : List TimedResourceReport
deriving DecidableEq

/-- The comprehension `[vars(x) for x in self.children]`. -/
def collectVars : List ChildVal → Except ReportError (List TimedResourceReport)
  | [] => .ok []
  | c :: cs =>
    match ChildVal.vars_of c with
    | .error e => .error e
    | .ok r =>
      match collectVars cs with
      | .error e => .error e
      | .ok rs => .ok (r :: rs)

/-- Source `TimelineReport.to_yaml`: `result = vars(self)` aliases the timeline's own
attribute dictionary, so `result['children'] = [vars(x) for x in
self.children]` replaces the timeline's `children` attribute with the list of
plain dictionaries before the document is dumped. -/
def TimelineReport.to_yaml (t : TimelineReport) :
    Except ReportError (TimelineVars × TimelineReport) :=
  match collectVars t.children with
  | .error e => .error e
  | .ok dicts =>
    let t' := { t with children := dicts.map ChildVal.attrDict }
    .ok (⟨t.start_time, t.finish_time, dicts⟩, t')

/-! Specification-side helper functions (used only in theorem statements) -/

/-- The underlying four fields of a child, whether it is still a report object
or the attribute dictionary left behind by `to_yaml`. -/
def ChildVal.fields : ChildVal → TimedResourceReport
  | .report r => r
  | .attrDict r => r

/-- The set start times of a list of children, in order. -/
def setStarts (cs : List ChildVal) : List ℚ :=
  cs.filterMap (fun c => (ChildVal.fields c).start_time)

/-- The set finish times of a list of children, in order. -/
def setFinishes (cs : List ChildVal) : List ℚ :=
  cs.filterMap (fun c => (ChildVal.fields c).finish_time)

/-! Helper lemmas -/

lemma collectSetTimes_reports (f : ChildVal → Except ReportError (Option ℚ))
    (g : TimedResourceReport → Option ℚ)
    (hf : ∀ r, f (ChildVal.report r) = .ok (g r))
    (cs : List ChildVal) (hall : ∀ c ∈ cs, ∃ r, c = ChildVal.report r) :
    collectSetTimes f cs = .ok (cs.filterMap (fun c => g (ChildVal.fields c))) := by
  induction cs with
  | nil => simp [collectSetTimes]
  | cons c cs ih =>
    obtain ⟨r, rfl⟩ := hall c (List.mem_cons_self c cs)
    have ih' := ih (fun c hc => hall c (List.mem_cons_of_mem _ hc))
    rw [collectSetTimes, hf, ih']
    cases h : g (ChildVal.fields (ChildVal.report r)) with
    | none => simp [ChildVal.fields] at h; simp [List.filterMap_cons, ChildVal.fields, h]
    | some x => simp [ChildVal.fields] at h; simp [List.filterMap_cons, ChildVal.fields, h]

lemma collect_starts (cs : List ChildVal) (hall : ∀ c ∈ cs, ∃ r, c = ChildVal.report r) :
    collectSetTimes ChildVal.start_attr cs = .ok (setStarts cs) :=
  collectSetTimes_reports ChildVal.start_attr (fun rr => rr.start_time)
    (fun _ => rfl) cs hall

lemma collect_finishes (cs : List ChildVal) (hall : ∀ c ∈ cs, ∃ r, c = ChildVal.report r) :
    collectSetTimes ChildVal.finish_attr cs = .ok (setFinishes cs) :=
  collectSetTimes_reports ChildVal.finish_attr (fun rr => rr.finish_time)
    (fun _ => rfl) cs hall

lemma insertionSort_head_min (l : List ℚ) (x : ℚ) (xs : List ℚ)
    (h : List.insertionSort (· ≤ ·) l = x :: xs) : x ∈ l ∧ ∀ y ∈ l, x ≤ y := by
  have hperm := List.perm_insertionSort (fun a b : ℚ => a ≤ b) l
  have hsorted := List.sorted_insertionSort (fun a b : ℚ => a ≤ b) l
  rw [h] at hperm hsorted
  refine ⟨hperm.subset (List.mem_cons_self x xs), fun y hy => ?_⟩
  rcases List.mem_cons.mp (hperm.symm.subset hy) with rfl | h'
  · exact le_refl y
  · exact List.rel_of_sorted_cons hsorted y h'

lemma sorted_le_getLast : ∀ (m : List ℚ), m.Sorted (· ≤ ·) → ∀ x, m.getLast? = some x →
    ∀ y ∈ m, y ≤ x := by
  intro m
  induction m with
  | nil => intro _ x hx; simp at hx
  | cons a rest ih =>
    intro hs x hx y hy
    cases rest with
    | nil =>
      simp at hx hy
      rw [hy, hx]
    | cons b rest' =>
      rw [List.getLast?_cons_cons] at hx
      rcases List.mem_cons.mp hy with rfl | hy'
      · have hxmem : x ∈ b :: rest' := by
          rcases List.mem_getLast?_eq_getLast (l := b :: rest') (x := x)
            (by rw [Option.mem_def]; exact hx) with ⟨hne, hxl⟩
          rw [hxl]
          exact List.getLast_mem hne
        exact List.rel_of_sorted_cons hs x hxmem
      · exact ih hs.of_cons x hx y hy'

lemma insertionSort_getLast_max (l : List ℚ) (x : ℚ)
    (h : (List.insertionSort (· ≤ ·) l).getLast? = some x) : x ∈ l ∧ ∀ y ∈ l, y ≤ x := by
  have hperm := List.perm_insertionSort (fun a b : ℚ => a ≤ b) l
  have hsorted := List.sorted_insertionSort (fun a b : ℚ => a ≤ b) l
  constructor
  · refine hperm.subset ?_
    rcases List.mem_getLast?_eq_getLast (by rw [Option.mem_def]; exact h) with ⟨hne, hxl⟩
    rw [hxl]
    exact List.getLast_mem hne
  · intro y hy
    exact sorted_le_getLast _ hsorted x h y (hperm.symm.subset hy)

/-- What `_recalculate_times` guarantees on a timeline whose children are all
report objects: it succeeds, keeps the children, and sets the span fields
from the minimum set start and the maximum set finish whenever those exist. -/
lemma recalculate_times_spec (u : TimelineReport)
    (hall : ∀ c ∈ u.children, ∃ rr, c = ChildVal.report rr) :
    ∃ t', u._recalculate_times = .ok t' ∧ t'.children = u.children ∧
      (setStarts u.children ≠ [] →
        ∃ m, t'.start_time = some m ∧ m ∈ setStarts u.children ∧
          ∀ y ∈ setStarts u.children, m ≤ y) ∧
      (setFinishes u.children ≠ [] →
        ∃ m, t'.finish_time = some m ∧ m ∈ setFinishes u.children ∧
          ∀ y ∈ setFinishes u.children, y ≤ m) := by
  cases hsort : List.insertionSort (· ≤ ·) (setStarts u.children) with
  | nil =>
    have hnil : setStarts u.children = [] := by
      have hperm := List.perm_insertionSort (fun a b : ℚ => a ≤ b) (setStarts u.children)
      rw [hsort] at hperm
      exact (hperm.symm).eq_nil
    cases hlast : (List.insertionSort (· ≤ ·) (setFinishes u.children)).getLast? with
    | none =>
      have hfnil : setFinishes u.children = [] := by
        have hperm := List.perm_insertionSort (fun a b : ℚ => a ≤ b) (setFinishes u.children)
        rw [List.getLast?_eq_none_iff.mp hlast] at hperm
        exact (hperm.symm).eq_nil
      refine ⟨u, ?_, rfl, fun h => absurd hnil h, fun h => absurd hfnil h⟩
      rw [TimelineReport._recalculate_times, collect_starts u.children hall]
      simp only [hsort]
      rw [collect_finishes u.children hall]
      simp only [hlast]
    | some m =>
      obtain ⟨hmem, hmax⟩ := insertionSort_getLast_max _ _ hlast
      refine ⟨{ u with finish_time := some m }, ?_, rfl,
        fun h => absurd hnil h, fun _ => ⟨m, rfl, hmem, hmax⟩⟩
      rw [TimelineReport._recalculate_times, collect_starts u.children hall]
      simp only [hsort]
      rw [collect_finishes u.children hall]
      simp only [hlast]
  | cons x xs =>
    obtain ⟨hxmem, hxmin⟩ := insertionSort_head_min _ _ _ hsort
    cases hlast : (List.insertionSort (· ≤ ·) (setFinishes u.children)).getLast? with
    | none =>
      have hfnil : setFinishes u.children = [] := by
        have hperm := List.perm_insertionSort (fun a b : ℚ => a ≤ b) (setFinishes u.children)
        rw [List.getLast?_eq_none_iff.mp hlast] at hperm
        exact (hperm.symm).eq_nil
      refine ⟨{ u with start_time := some x }, ?_, rfl,
        fun _ => ⟨x, rfl, hxmem, hxmin⟩, fun h => absurd hfnil h⟩
      rw [TimelineReport._recalculate_times, collect_starts u.children hall]
      simp only [hsort]
      rw [collect_finishes u.children hall]
      simp only [hlast]
    | some m =>
      obtain ⟨hmem, hmax⟩ := insertionSort_getLast_max _ _ hlast
      refine ⟨{ u with start_time := some x, finish_time := some m }, ?_, rfl,
        fun _ => ⟨x, rfl, hxmem, hxmin⟩, fun _ => ⟨m, rfl, hmem, hmax⟩⟩
      rw [TimelineReport._recalculate_times, collect_starts u.children hall]
      simp only [hsort]
      rw [collect_finishes u.children hall]
      simp only [hlast]

lemma collectVars_reports (rs : List TimedResourceReport) :
    collectVars (rs.map ChildVal.report) = .ok rs := by
  induction rs with
  | nil => simp [collectVars]
  | cons r rs ih => simp [collectVars, ChildVal.vars_of, ih]


/-- Claim C2, counterexample: `MemoryParser.parse_to_megabytes("1G")` returns
`1e9/1024 = 976562.5`, not the claimed `1e9/1e6 = 1000`. -/
theorem parse_one_g_counterexample :
    MemoryParser.parse_to_megabytes "1G" = .ok (10 ^ 9 / 1024) ∧
    (10 ^ 9 / 1024 : ℚ) ≠ 1000 := by
  constructor
  · simp +decide [MemoryParser.parse_to_megabytes, MemoryParser.parse, ResourceParser.parse,
      MemoryParser.suffixes, findSuffix, replaceAll, replaceAllAux, pyFloat,
      digitsVal, digitsValNat, digitVal, Except.map]
  · norm_num

/-- Claim C2, amended: `parse_to_megabytes` divides the parsed byte quantity
by 1024, so "1Gi" yields `2^30/1024` and "1G" yields `1e9/1024`. -/
theorem parse_to_megabytes_values :
    MemoryParser.parse_to_megabytes "1Gi" = .ok (2 ^ 30 / 1024) ∧
    MemoryParser.parse_to_megabytes "1G" = .ok (10 ^ 9 / 1024) := by
  constructor <;>
  · simp +decide [MemoryParser.parse_to_megabytes, MemoryParser.parse, ResourceParser.parse,
      MemoryParser.suffixes, findSuffix, replaceAll, replaceAllAux, pyFloat,
      digitsVal, digitsValNat, digitVal, Except.map]

/-- Claim C5, counterexample: "G" ends with the known suffix `G`, yet
`parse` fails with `UnparseableQuantity` because the remainder after stripping
the suffix is not numeric; the claim asserts every string carrying a known
suffix succeeds. -/
theorem known_suffix_unparseable_counterexample :
    (findSuffix MemoryParser.suffixes "G".toList).isSome = true ∧
    MemoryParser.parse "G" = .error (.unparseableQuantity "G" "memory") := by
  constructor
  · decide
  · simp +decide [MemoryParser.parse, ResourceParser.parse,
      MemoryParser.suffixes, findSuffix, replaceAll, replaceAllAux, pyFloat,
      digitsVal, digitsValNat, digitVal]

/-- Claim C5, amended: every failure of `ResourceParser.parse` is an
`UnparseableQuantity` error carrying the offending value and the resource
kind; a string succeeds exactly when the remainder after stripping the first
matching suffix parses as a float (result: value times factor), or no suffix
matches and the bare string parses as a float (result: the bare value). -/
theorem parse_characterization (suffixes : List (List Char × ℚ)) (kind value : String) :
    (∀ e, ResourceParser.parse suffixes kind value = .error e →
      e = .unparseableQuantity value kind) ∧
    (∀ suffix factor, findSuffix suffixes value.toList = some (suffix, factor) →
      (∀ x, pyFloat (replaceAll value.toList suffix) = some x →
        ResourceParser.parse suffixes kind value = .ok (x * factor)) ∧
      (pyFloat (replaceAll value.toList suffix) = none →
        ResourceParser.parse suffixes kind value =
          .error (.unparseableQuantity value kind))) ∧
    (findSuffix suffixes value.toList = none →
      (∀ x, pyFloat value.toList = some x →
        ResourceParser.parse suffixes kind value = .ok x) ∧
      (pyFloat value.toList = none →
        ResourceParser.parse suffixes kind value =
          .error (.unparseableQuantity value kind))) := by
  refine ⟨?_, ?_, ?_⟩
  · intro e he
    rw [ResourceParser.parse] at he
    cases hfs : findSuffix suffixes value.toList with
    | some sf =>
      obtain ⟨suffix, factor⟩ := sf
      simp only [hfs] at he
      cases hpf : pyFloat (replaceAll value.toList suffix) with
      | some x => simp only [hpf] at he; cases he
      | none =>
        simp only [hpf] at he
        injection he with h
        exact h.symm
    | none =>
      simp only [hfs] at he
      cases hpf : pyFloat value.toList with
      | some x => simp only [hpf] at he; cases he
      | none =>
        simp only [hpf] at he
        injection he with h
        exact h.symm
  · intro suffix factor hfs
    constructor
    · intro x hpf
      rw [ResourceParser.parse]
      simp only [hfs, hpf]
    · intro hpf
      rw [ResourceParser.parse]
      simp only [hfs, hpf]
  · intro hfs
    constructor
    · intro x hpf
      rw [ResourceParser.parse]
      simp only [hfs, hpf]
    · intro hpf
      rw [ResourceParser.parse]
      simp only [hfs, hpf]

/-- Witness for C5's amended theorem: at the concrete input "2G" the
suffix-match clause applies and yields `2 * 10^9`. -/
theorem parse_characterization_witness :
    ResourceParser.parse MemoryParser.suffixes "memory" "2G" = .ok (2 * 10 ^ 9) :=
  ((parse_characterization MemoryParser.suffixes "memory" "2G").2.1 ['G'] (10 ^ 9)
    (by decide)).1 2
    (by simp +decide [replaceAll, replaceAllAux, pyFloat, digitsVal, digitsValNat, digitVal])


/-- Claim C4: `elapsed_seconds` returns `finish - start` in seconds, which is
nonnegative whenever `start <= finish`; when finish strictly precedes start it
fails with the negative-interval `ValueError` (never clamping to zero), and
for an interval with both instants set this is the only failure case. -/
theorem elapsed_seconds_spec (s f : ℚ) :
    (s ≤ f → TimedReport.elapsed_seconds ⟨some s, some f⟩ = .ok (f - s) ∧ 0 ≤ f - s) ∧
    (f < s → TimedReport.elapsed_seconds ⟨some s, some f⟩ =
      .error (.invalidInterval (f - s))) ∧
    (∀ e, TimedReport.elapsed_seconds ⟨some s, some f⟩ = .error e →
      f < s ∧ e = .invalidInterval (f - s)) := by
  refine ⟨fun h => ?_, fun h => ?_, fun e he => ?_⟩
  · rw [TimedReport.elapsed_seconds]
    simp [not_lt.mpr (sub_nonneg.mpr h), sub_nonneg.mpr h]
  · rw [TimedReport.elapsed_seconds]
    simp [sub_neg.mpr h]
  · rw [TimedReport.elapsed_seconds] at he
    by_cases hlt : f - s < 0
    · simp [hlt] at he
      exact ⟨sub_neg.mp hlt, he.symm⟩
    · simp [hlt] at he

/-- Witness for C4 at the concrete interval `[0, 5]`. -/
theorem elapsed_seconds_spec_witness :
    TimedReport.elapsed_seconds ⟨some 0, some 5⟩ = .ok (5 - 0) ∧ 0 ≤ (5 : ℚ) - 0 :=
  (elapsed_seconds_spec 0 5).1 (by norm_num)

/-- Claim C7: the sweep adds the weight on START, subtracts it on FINISH and
takes the running maximum after each event; on the overlapping intervals
A = [0,10) with CPU weight 2 and B = [5,15) with CPU weight 3,
`max_parallel_cpus` returns 5. -/
theorem max_parallel_cpus_overlap :
    (TimelineReport.max_parallel_cpus
      ⟨[ChildVal.report ⟨⟨some 0, some 10⟩, 2, 0⟩,
        ChildVal.report ⟨⟨some 5, some 15⟩, 3, 0⟩], none, none⟩).1 = .ok 5 ∧
    ∀ (p : SweepProcessor) (r : TimedResourceReport),
      (p.process r Event.START).count = p.count + p.count_unit r ∧
      (p.process r Event.FINISH).count = p.count - p.count_unit r ∧
      (p.process r Event.START).max = Max.max p.max (p.count + p.count_unit r) ∧
      (p.process r Event.FINISH).max = Max.max p.max (p.count - p.count_unit r) := by
  constructor
  · simp +decide [TimelineReport.max_parallel_cpus, TimelineReport._walk, buildEvents,
      Event.start_event, Event.finish_event, List.insertionSort, List.orderedInsert,
      eventLe, Event.process, SweepProcessor.process, SweepProcessor.result,
      MaxParallelCPUsProcessor, Event.START, Event.FINISH, Except.map]
    norm_num
  · intro p r
    refine ⟨?_, ?_, ?_, ?_⟩ <;> simp +decide [SweepProcessor.process, Event.START, Event.FINISH]

/-- Claim C8: the three max-parallel queries leave the timeline state
(children, start, finish) unchanged, and calling the same query again on the
state returned by the first call yields the same answer. -/
theorem queries_side_effect_free (t : TimelineReport) :
    (t.max_parallel_tasks).2 = t ∧
    (t.max_parallel_cpus).2 = t ∧
    (t.max_parallel_ram_megabytes).2 = t ∧
    ((t.max_parallel_tasks).2.max_parallel_tasks).1 = (t.max_parallel_tasks).1 ∧
    ((t.max_parallel_cpus).2.max_parallel_cpus).1 = (t.max_parallel_cpus).1 ∧
    ((t.max_parallel_ram_megabytes).2.max_parallel_ram_megabytes).1 =
      (t.max_parallel_ram_megabytes).1 :=
  ⟨rfl, rfl, rfl, rfl, rfl, rfl⟩

/-- Claim C9: `total_cpu_hours` (resp. `total_ram_megabyte_hours`) sums the
per-child `cpus * elapsed_hours` (resp. RAM) values, each child contributing
`weight * (finish - start) / 3600`; a single child with CPU weight 2 and a
3600-second interval yields exactly 2. -/
theorem total_hours_sum :
    (∀ (t : TimelineReport) (hs : List ℚ),
      collectValues ChildVal.cpu_hours t.children = .ok hs →
      (t.total_cpu_hours).1 = .ok hs.sum) ∧
    (∀ (t : TimelineReport) (hs : List ℚ),
      collectValues ChildVal.ram_megabyte_hours t.children = .ok hs →
      (t.total_ram_megabyte_hours).1 = .ok hs.sum) ∧
    (∀ (r : TimedResourceReport) (s f : ℚ), r.start_time = some s →
      r.finish_time = some f → s ≤ f →
      r.cpu_hours = .ok (r.cpus * ((f - s) / SECONDS_PER_HOUR)) ∧
      r.ram_megabyte_hours = .ok (r.ram_megabytes * ((f - s) / SECONDS_PER_HOUR))) ∧
    (TimelineReport.total_cpu_hours
      ⟨[ChildVal.report ⟨⟨some 0, some 3600⟩, 2, 0⟩], none, none⟩).1 = .ok 2 := by
  refine ⟨?_, ?_, ?_, ?_⟩
  · intro t hs h
    simp [TimelineReport.total_cpu_hours, h, Except.map]
  · intro t hs h
    simp [TimelineReport.total_ram_megabyte_hours, h, Except.map]
  · intro r s f hst hfi hle
    constructor
    · rw [TimedResourceReport.cpu_hours, TimedReport.elapsed_hours, TimedReport.elapsed_seconds]
      simp [hst, hfi, not_lt.mpr (sub_nonneg.mpr hle), Except.map]
    · rw [TimedResourceReport.ram_megabyte_hours, TimedReport.elapsed_hours,
        TimedReport.elapsed_seconds]
      simp [hst, hfi, not_lt.mpr (sub_nonneg.mpr hle), Except.map]
  · simp +decide [TimelineReport.total_cpu_hours, collectValues, ChildVal.cpu_hours,
      TimedResourceReport.cpu_hours, TimedReport.elapsed_hours, TimedReport.elapsed_seconds,
      SECONDS_PER_HOUR, Except.map]
    norm_num

/-- Witness for C9: the per-child clause at a concrete child with CPU weight 2,
RAM weight 5 and the interval `[0, 3600]`. -/
theorem total_hours_sum_witness :
    TimedResourceReport.cpu_hours ⟨⟨some 0, some 3600⟩, 2, 5⟩ =
      .ok (2 * ((3600 - 0) / SECONDS_PER_HOUR)) ∧
    TimedResourceReport.ram_megabyte_hours ⟨⟨some 0, some 3600⟩, 2, 5⟩ =
      .ok (5 * ((3600 - 0) / SECONDS_PER_HOUR)) :=
  total_hours_sum.2.2.1 ⟨⟨some 0, some 3600⟩, 2, 5⟩ 0 3600 rfl rfl (by norm_num)


/-- Claim C1, counterexample: a pair of empty intervals `A = [0,0)` and
`B = [0,0)` has A's finish instant equal to B's start instant, yet
`max_parallel_tasks` returns 0, not the claimed 1 (all four events share one
time, both FINISH events sort first and the count never becomes positive). -/
theorem touching_degenerate_counterexample :
    (TimedResourceReport.mk ⟨some 0, some 0⟩ 1 1).finish_time =
      (TimedResourceReport.mk ⟨some 0, some 0⟩ 1 1).start_time ∧
    (TimelineReport.max_parallel_tasks
      ⟨[ChildVal.report ⟨⟨some 0, some 0⟩, 1, 1⟩,
        ChildVal.report ⟨⟨some 0, some 0⟩, 1, 1⟩], none, none⟩).1 = .ok 0 ∧
    (Except.ok (0 : ℚ) : Except ReportError ℚ) ≠ .ok 1 := by
  refine ⟨rfl, ?_, ?_⟩
  · simp +decide [TimelineReport.max_parallel_tasks, TimelineReport._walk, buildEvents,
      Event.start_event, Event.finish_event, List.insertionSort, List.orderedInsert,
      eventLe, Event.process, SweepProcessor.process, SweepProcessor.result,
      MaxParallelCountProcessor, Event.START, Event.FINISH, Except.map]
  · intro h
    exact absurd (Except.ok.inj h) (by norm_num)

/-- Claim C1, amended: finish events sort before start events at equal times,
so for every pair of nonempty intervals `[a,b)` and `[b,c)` (one's finish
instant equal to the other's start instant, `a < b < c`, arbitrary weights and
insertion order) `max_parallel_tasks` returns 1: touching nonempty intervals
are never counted as overlapping. -/
theorem touching_intervals_max_parallel_one (rA rB : TimedResourceReport)
    (a b c : ℚ) (s0 f0 : Option ℚ)
    (hAs : rA.start_time = some a) (hAf : rA.finish_time = some b)
    (hBs : rB.start_time = some b) (hBf : rB.finish_time = some c)
    (hab : a < b) (hbc : b < c) :
    (TimelineReport.max_parallel_tasks
      ⟨[ChildVal.report rA, ChildVal.report rB], s0, f0⟩).1 = .ok 1 ∧
    (TimelineReport.max_parallel_tasks
      ⟨[ChildVal.report rB, ChildVal.report rA], s0, f0⟩).1 = .ok 1 := by
  have hac : a < c := hab.trans hbc
  constructor <;>
  · simp +decide [TimelineReport.max_parallel_tasks, TimelineReport._walk, buildEvents,
      Event.start_event, Event.finish_event, hAs, hAf, hBs, hBf,
      List.insertionSort, List.orderedInsert,
      eventLe, Event.process, SweepProcessor.process, SweepProcessor.result,
      MaxParallelCountProcessor, Event.START, Event.FINISH, Except.map,
      hab, hbc, hac, hab.ne', hbc.ne', hac.ne', lt_asymm hab, lt_asymm hbc, lt_asymm hac]

/-- Witness for C1's amended theorem at the spec's own example
`A = [0,10)`, `B = [10,20)`, memory weight 1 each. -/
theorem touching_intervals_max_parallel_one_witness :
    (TimelineReport.max_parallel_tasks
      ⟨[ChildVal.report ⟨⟨some 0, some 10⟩, 0, 1⟩,
        ChildVal.report ⟨⟨some 10, some 20⟩, 0, 1⟩], none, none⟩).1 = .ok 1 ∧
    (TimelineReport.max_parallel_tasks
      ⟨[ChildVal.report ⟨⟨some 10, some 20⟩, 0, 1⟩,
        ChildVal.report ⟨⟨some 0, some 10⟩, 0, 1⟩], none, none⟩).1 = .ok 1 :=
  touching_intervals_max_parallel_one ⟨⟨some 0, some 10⟩, 0, 1⟩ ⟨⟨some 10, some 20⟩, 0, 1⟩
    0 10 20 none none rfl rfl rfl rfl (by norm_num) (by norm_num)

/-- Claim C3, counterexample: a timeline with exactly one child whose start
equals its finish (an empty interval `[0,0)`) returns 0 from
`max_parallel_tasks`, not the claimed 1. -/
theorem single_degenerate_child_counterexample :
    (TimelineReport.max_parallel_tasks
      ⟨[ChildVal.report ⟨⟨some 0, some 0⟩, 1, 1⟩], none, none⟩).1 = .ok 0 ∧
    (Except.ok (0 : ℚ) : Except ReportError ℚ) ≠ .ok 1 := by
  constructor
  · simp +decide [TimelineReport.max_parallel_tasks, TimelineReport._walk, buildEvents,
      Event.start_event, Event.finish_event, List.insertionSort, List.orderedInsert,
      eventLe, Event.process, SweepProcessor.process, SweepProcessor.result,
      MaxParallelCountProcessor, Event.START, Event.FINISH, Except.map]
  · intro h
    exact absurd (Except.ok.inj h) (by norm_num)

/-- Claim C3, amended: `max_parallel_tasks` on zero children returns 0, and on
exactly one child whose start strictly precedes its finish returns 1. -/
theorem max_parallel_tasks_base_counts (s0 f0 : Option ℚ) (r : TimedResourceReport)
    (s f : ℚ) (hs : r.start_time = some s) (hf : r.finish_time = some f) (hsf : s < f) :
    (TimelineReport.max_parallel_tasks ⟨[], s0, f0⟩).1 = .ok 0 ∧
    (TimelineReport.max_parallel_tasks ⟨[ChildVal.report r], s0, f0⟩).1 = .ok 1 := by
  constructor
  · simp [TimelineReport.max_parallel_tasks, TimelineReport._walk, buildEvents,
      List.insertionSort, SweepProcessor.result, MaxParallelCountProcessor, Except.map]
  · simp +decide [TimelineReport.max_parallel_tasks, TimelineReport._walk, buildEvents,
      Event.start_event, Event.finish_event, hs, hf, List.insertionSort, List.orderedInsert,
      eventLe, Event.process, SweepProcessor.process, SweepProcessor.result,
      MaxParallelCountProcessor, Event.START, Event.FINISH, Except.map, hsf]

/-- Witness for C3's amended theorem at one child over `[0, 10)`. -/
theorem max_parallel_tasks_base_counts_witness :
    (TimelineReport.max_parallel_tasks ⟨[], none, none⟩).1 = .ok 0 ∧
    (TimelineReport.max_parallel_tasks
      ⟨[ChildVal.report ⟨⟨some 0, some 10⟩, 1, 1⟩], none, none⟩).1 = .ok 1 :=
  max_parallel_tasks_base_counts none none ⟨⟨some 0, some 10⟩, 1, 1⟩ 0 10 rfl rfl
    (by norm_num)

/-- Claim C6: after an `add_report` insertion on a timeline whose children are
all report objects, the new child list is the old one plus the report, the
timeline's start is the minimum start over children whose start is set, and
its finish is the maximum finish over children whose finish is set. -/
theorem add_report_span_invariant (t : TimelineReport) (r : TimedResourceReport)
    (hall : ∀ c ∈ t.children, ∃ rr, c = ChildVal.report rr) :
    ∃ t', t.add_report r = .ok t' ∧
      t'.children = t.children ++ [ChildVal.report r] ∧
      (setStarts t'.children ≠ [] →
        ∃ m, t'.start_time = some m ∧ m ∈ setStarts t'.children ∧
          ∀ y ∈ setStarts t'.children, m ≤ y) ∧
      (setFinishes t'.children ≠ [] →
        ∃ m, t'.finish_time = some m ∧ m ∈ setFinishes t'.children ∧
          ∀ y ∈ setFinishes t'.children, y ≤ m) := by
  have hall' : ∀ c ∈ t.children ++ [ChildVal.report r], ∃ rr, c = ChildVal.report rr := by
    intro c hc
    rcases List.mem_append.mp hc with h | h
    · exact hall c h
    · rw [List.mem_singleton] at h
      exact ⟨r, h⟩
  obtain ⟨t', h1, h2, h3, h4⟩ :=
    recalculate_times_spec { t with children := t.children ++ [ChildVal.report r] } hall'
  refine ⟨t', h1, h2, ?_, ?_⟩ <;> rw [h2] <;> assumption

/-- Witness for C6: adding a child over `[3, 8]` to a timeline holding
children over `[5, 7]` and `[1, 9]`. -/
theorem add_report_span_invariant_witness :
    ∃ t', (TimelineReport.add_report
        ⟨[ChildVal.report ⟨⟨some 5, some 7⟩, 1, 1⟩,
          ChildVal.report ⟨⟨some 1, some 9⟩, 1, 1⟩], some 1, some 9⟩
        ⟨⟨some 3, some 8⟩, 1, 1⟩) = .ok t' ∧
      t'.children = [ChildVal.report ⟨⟨some 5, some 7⟩, 1, 1⟩,
          ChildVal.report ⟨⟨some 1, some 9⟩, 1, 1⟩] ++
        [ChildVal.report ⟨⟨some 3, some 8⟩, 1, 1⟩] ∧
      (setStarts t'.children ≠ [] →
        ∃ m, t'.start_time = some m ∧ m ∈ setStarts t'.children ∧
          ∀ y ∈ setStarts t'.children, m ≤ y) ∧
      (setFinishes t'.children ≠ [] →
        ∃ m, t'.finish_time = some m ∧ m ∈ setFinishes t'.children ∧
          ∀ y ∈ setFinishes t'.children, y ≤ m) :=
  add_report_span_invariant
    ⟨[ChildVal.report ⟨⟨some 5, some 7⟩, 1, 1⟩,
      ChildVal.report ⟨⟨some 1, some 9⟩, 1, 1⟩], some 1, some 9⟩
    ⟨⟨some 3, some 8⟩, 1, 1⟩
    (fun c hc => by fin_cases hc <;> exact ⟨_, rfl⟩)

/-- Claim C10: `to_yaml` is not side-effect-free: it replaces the timeline's
children with plain attribute dictionaries, after which no child is a report
object any more and (for a nonempty timeline) every aggregation operation and
a second `to_yaml` fail instead of operating on the original reports. -/
theorem to_yaml_replaces_children (t : TimelineReport) (rs : List TimedResourceReport)
    (hc : t.children = rs.map ChildVal.report) :
    ∃ doc t', t.to_yaml = .ok (doc, t') ∧
      t'.children = rs.map ChildVal.attrDict ∧
      (∀ r, ChildVal.report r ∉ t'.children) ∧
      (rs ≠ [] →
        (t'.total_cpu_hours).1 = .error .attributeError ∧
        (t'.total_ram_megabyte_hours).1 = .error .attributeError ∧
        (t'.max_parallel_tasks).1 = .error .attributeError ∧
        (t'.max_parallel_cpus).1 = .error .attributeError ∧
        (t'.max_parallel_ram_megabytes).1 = .error .attributeError ∧
        t'.to_yaml = .error .typeError) := by
  refine ⟨⟨t.start_time, t.finish_time, rs⟩, { t with children := rs.map ChildVal.attrDict },
    ?_, rfl, ?_, ?_⟩
  · rw [TimelineReport.to_yaml, hc, collectVars_reports]
  · intro r hr
    rcases List.mem_map.mp hr with ⟨x, _, hx⟩
    cases hx
  · intro hne
    obtain ⟨r0, rs', rfl⟩ : ∃ r0 rs', rs = r0 :: rs' := by
      cases rs with
      | nil => exact absurd rfl hne
      | cons a l => exact ⟨a, l, rfl⟩
    refine ⟨?_, ?_, ?_, ?_, ?_, ?_⟩
    · simp [TimelineReport.total_cpu_hours, collectValues, ChildVal.cpu_hours, Except.map]
    · simp [TimelineReport.total_ram_megabyte_hours, collectValues, ChildVal.ram_megabyte_hours, Except.map]
    · simp [TimelineReport.max_parallel_tasks, TimelineReport._walk, buildEvents, Except.map]
    · simp [TimelineReport.max_parallel_cpus, TimelineReport._walk, buildEvents, Except.map]
    · simp [TimelineReport.max_parallel_ram_megabytes, TimelineReport._walk, buildEvents, Except.map]
    · simp [TimelineReport.to_yaml, collectVars, ChildVal.vars_of]

/-- Witness for C10 at a one-child timeline. -/
theorem to_yaml_replaces_children_witness :
    ∃ doc t', (TimelineReport.to_yaml
        ⟨[ChildVal.report ⟨⟨some 0, some 3600⟩, 2, 5⟩], some 0, some 3600⟩) =
        .ok (doc, t') ∧
      t'.children = [⟨⟨some 0, some 3600⟩, 2, 5⟩].map ChildVal.attrDict ∧
      (∀ r, ChildVal.report r ∉ t'.children) ∧
      ([(⟨⟨some 0, some 3600⟩, 2, 5⟩ : TimedResourceReport)] ≠ [] →
        (t'.total_cpu_hours).1 = .error .attributeError ∧
        (t'.total_ram_megabyte_hours).1 = .error .attributeError ∧
        (t'.max_parallel_tasks).1 = .error .attributeError ∧
        (t'.max_parallel_cpus).1 = .error .attributeError ∧
        (t'.max_parallel_ram_megabytes).1 = .error .attributeError ∧
        t'.to_yaml = .error .typeError) :=
  to_yaml_replaces_children
    ⟨[ChildVal.report ⟨⟨some 0, some 3600⟩, 2, 5⟩], some 0, some 3600⟩
    [⟨⟨some 0, some 3600⟩, 2, 5⟩] rfl

end Calrissian
